import Mathlib

/-!
# Streamlet media pipeline — verification development

A shallow embedding of the core of the `streamlet` media library server:
the path addresser (`parseVideoPath`), the HTTP range streaming handler
(`StreamVideo`), the engagement-scoring store (`IncrementViews`,
`ToggleLike`, `updateHotness`), the artifact generators
(`generateThumbnail`, `generatePreview`) and the batch-run scheduler.

Modelling conventions:
* Go strings are Lean `String`s; the Go standard-library helpers the code
  relies on (`strings.Split`, `strings.SplitN`, `strings.TrimPrefix`,
  `strings.TrimSpace`, `strconv.Atoi`, `strconv.ParseInt`,
  `strconv.ParseFloat`, `path/filepath.Clean`, `Join`, `Abs`,
  `strings.HasPrefix`) are implemented below over `List Char`.
* `float64` quantities (durations, hotness scores) are modelled as `ℚ`;
  none of the verified properties depend on binary rounding.
* The filesystem is a function from path to `Option` of file size (or a
  Bool existence predicate), the SQLite `video_stats` table is a function
  from path to an optional row, and subprocess invocations (`ffprobe` /
  `ffmpeg`) are environment parameters whose outcomes are given up front;
  the model counts how many of them each code path performs.
-/

set_option maxRecDepth 10000

namespace Streamlet

/-! ## Go string primitives -/

/-- `strings.Split(s, sep)` for a one-character separator, on `List Char`.
Always returns at least one (possibly empty) field. -/
def splitChar (sep : Char) : List Char → List (List Char)
  | [] => [[]]
  | c :: cs =>
    if c = sep then [] :: splitChar sep cs
    else
      match splitChar sep cs with
      | [] => [[c]]
      | h :: t => (c :: h) :: t

/-- `strings.SplitN(s, sep, 2)` for a one-character separator: split at the
first occurrence only. -/
def splitN2Char (sep : Char) : List Char → List (List Char)
  | [] => [[]]
  | c :: cs =>
    if c = sep then [[], cs]
    else
      match splitN2Char sep cs with
      | [] => [[c]]
      | h :: t => (c :: h) :: t

/-- `strings.Contains(s, sep)` for a one-character needle. -/
def stringsContainsChar (s : String) (c : Char) : Bool :=
  s.data.contains c

/-- `strings.HasPrefix(s, pre)`: plain string-prefix test. -/
def goHasPrefix (s pre : String) : Bool :=
  pre.data.isPrefixOf s.data

/-- `strings.TrimPrefix(s, pre)`. -/
def trimPrefixGo (s pre : String) : String :=
  if pre.data.isPrefixOf s.data then String.mk (s.data.drop pre.data.length) else s

/-- The ASCII whitespace recognised by `strings.TrimSpace` (ASCII inputs). -/
def isSpaceGo (c : Char) : Bool :=
  c = ' ' ∨ c = '\t' ∨ c = '\n' ∨ c = '\r' ∨ c = '\x0b' ∨ c = '\x0c'

/-- `strings.TrimSpace(s)` (over the ASCII range used by `ffprobe` output). -/
def trimSpace (s : String) : String :=
  String.mk (((s.data.dropWhile isSpaceGo).reverse.dropWhile isSpaceGo).reverse)

/-- Value of a nonempty all-digit run, accumulator form. -/
def digitsToNatAux : Nat → List Char → Option Nat
  | acc, [] => some acc
  | acc, c :: cs =>
    if c.isDigit then digitsToNatAux (acc * 10 + (c.toNat - 48)) cs else none

/-- Decimal value of a nonempty digit string; `none` on empty or non-digit. -/
def digitsToNat : List Char → Option Nat
  | [] => none
  | l => digitsToNatAux 0 l

/-- Optional sign followed by digits, as accepted by `strconv.ParseInt`
(base 10); value before any 64-bit range check. -/
def parseSigned : List Char → Option Int
  | [] => none
  | c :: cs =>
    if c = '+' then (digitsToNat cs).map Int.ofNat
    else if c = '-' then (digitsToNat cs).map (fun n => -(Int.ofNat n))
    else (digitsToNat (c :: cs)).map Int.ofNat

def int64Max : Int := 9223372036854775807

def int64Min : Int := -9223372036854775808

/-- `strconv.Atoi(s)`: `none` on syntax error or 64-bit range overflow. -/
def goAtoi (s : String) : Option Int :=
  match parseSigned s.data with
  | none => none
  | some v => if v < int64Min ∨ int64Max < v then none else some v

/-- `v, _ := strconv.ParseInt(s, 10, 64)` with the error ignored, as the
streaming handler does: syntax error yields 0, range overflow yields the
clamped extreme. -/
def parseInt64OrZeroL (l : List Char) : Int :=
  match parseSigned l with
  | none => 0
  | some v => if v > int64Max then int64Max else if v < int64Min then int64Min else v

/-- Digit run allowing empty (empty counts as 0), used for the two sides of
a decimal point. -/
def digitsToNatOrZero (l : List Char) : Option Nat :=
  match l with
  | [] => some 0
  | _ => digitsToNat l

/-- Plain decimal forms (`[sign] digits [. digits]`, at least one digit),
covering the shapes `ffprobe` prints. Other syntaxes are treated as
unparseable, matching `strconv.ParseFloat` returning an error. -/
def parseDecimalQ (l : List Char) : Option ℚ :=
  let core : List Char → Option ℚ := fun m =>
    match splitChar '.' m with
    | [intPart] => (digitsToNat intPart).map (fun n => (n : ℚ))
    | [intPart, fracPart] =>
      if intPart = [] ∧ fracPart = [] then none
      else
        match digitsToNatOrZero intPart, digitsToNatOrZero fracPart with
        | some n, some f => some ((n : ℚ) + (f : ℚ) / ((10 : ℚ) ^ fracPart.length))
        | _, _ => none
    | _ => none
  match l with
  | '+' :: rest => core rest
  | '-' :: rest => (core rest).map Neg.neg
  | m => core m

/-- `d, _ := strconv.ParseFloat(s, 64)` with the error ignored, as both
generators do: an unparseable duration string yields 0. -/
def goParseFloatOrZero (s : String) : ℚ :=
  match parseDecimalQ s.data with
  | none => 0
  | some q => q

/-! ## `path/filepath` lexical path processing (Unix rules) -/

/-- The component pass of `filepath.Clean`: drop empty and `.` components,
resolve `..` against the accumulated (reversed) output, keeping leading
`..`s only in relative paths. -/
def cleanRev (isAbs : Bool) : List (List Char) → List (List Char) → List (List Char)
  | acc, [] => acc
  | acc, c :: cs =>
    if c = [] ∨ c = ['.'] then cleanRev isAbs acc cs
    else if c = ['.', '.'] then
      match acc with
      | [] => if isAbs then cleanRev isAbs [] cs else cleanRev isAbs [['.', '.']] cs
      | h :: t =>
        if h = ['.', '.'] then cleanRev isAbs (c :: acc) cs else cleanRev isAbs t cs
    else cleanRev isAbs (c :: acc) cs

/-- `filepath.Clean(p)` for Unix paths. -/
def filepathClean (p : String) : String :=
  let isAbs : Bool := match p.data with | '/' :: _ => true | _ => false
  let out := (cleanRev isAbs [] (splitChar '/' p.data)).reverse
  let body := List.intercalate ['/'] out
  if isAbs then String.mk ('/' :: body)
  else if out = [] then "." else String.mk body

/-- `filepath.Join(a, b)`: concatenate with a separator and clean. -/
def filepathJoin (a b : String) : String :=
  if a.data = [] then filepathClean b
  else filepathClean (String.mk (a.data ++ '/' :: b.data))

/-- `filepath.Abs(p)` relative to working directory `cwd`. -/
def filepathAbs (cwd p : String) : String :=
  match p.data with
  | '/' :: _ => filepathClean p
  | _ => filepathJoin cwd p

/-! ## Configuration and the path addresser -/

/-- The fields of `config.Config` the pipeline reads. `videoDirs` is the
list of configured roots; `videoDir` is the legacy single root used by the
no-colon fallback. `previewSegments` is the segment count for previews. -/
structure Config where
  videoDir : String
  videoDirs : List String
  thumbnailDir : String
  previewSegments : Nat
deriving DecidableEq

inductive PathError where
  | invalidFormat
  | invalidIndex
  | indexOutOfRange
deriving DecidableEq

/-- `handlers.parseVideoPath`: an identifier containing `:` is split at the
first `:` into an index and a relative path; the index must be a decimal
integer within `[0, len(videoDirs))`. An identifier with no `:` falls back
to the legacy single root. -/
def parseVideoPath (prefixedPath : String) (cfg : Config) : Except PathError String :=
  if stringsContainsChar prefixedPath ':' then
    match splitN2Char ':' prefixedPath.data with
    | [idxPart, relPart] =>
      match goAtoi (String.mk idxPart) with
      | none => .error .invalidIndex
      | some dirIndex =>
        if dirIndex < 0 ∨ (cfg.videoDirs.length : Int) ≤ dirIndex then
          .error .indexOutOfRange
        else
          .ok (filepathJoin (cfg.videoDirs.getD dirIndex.toNat "") (String.mk relPart))
    | _ => .error .invalidFormat
  else
    .ok (filepathJoin cfg.videoDir prefixedPath)

/-! ## Range streaming handler (`handlers.StreamVideo`) -/

/-- The observable pieces of an HTTP response from the streaming handler.
`body` is the streamed slice of the source file as `(offset, byteCount)`;
JSON error payloads are not modelled (they carry no file bytes), so `body`
is `none` for every non-2xx response. Header fields default to unset. -/
structure StreamResponse where
  status : Nat
  contentType : Option String := none
  contentLength : Option Int := none
  contentRange : Option String := none
  acceptRanges : Bool := false
  body : Option (Int × Int) := none
deriving DecidableEq

/-- `handlers.StreamVideo`, as a function of the configuration, the working
directory (for `filepath.Abs`), the filesystem (path to file size), the
`*filename` route parameter and the `Range` header (empty string when the
header is absent, as `c.GetHeader` reports it). -/
def StreamVideo (cfg : Config) (cwd : String) (fs : String → Option Int)
    (filenameParam : String) (rangeHeader : String) : StreamResponse :=
  let filename := trimPrefixGo filenameParam "/"
  match parseVideoPath filename cfg with
  | .error _ => { status := 400 }
  | .ok p =>
    let absPath := filepathAbs cwd p
    let allowed := cfg.videoDirs.any (fun d => goHasPrefix absPath (filepathAbs cwd d))
    if allowed = false then { status := 403 }
    else
      match fs absPath with
      | none => { status := 404 }
      | some fileSize =>
        if rangeHeader = "" then
          { status := 200, contentType := some "video/mp4",
            contentLength := some fileSize, acceptRanges := true,
            body := some (0, fileSize) }
        else
          let rangeStr := trimPrefixGo rangeHeader "bytes="
          match splitChar '-' rangeStr.data with
          | [startPart, endPart] =>
            let start := parseInt64OrZeroL startPart
            let endPos := if endPart = [] then fileSize - 1 else parseInt64OrZeroL endPart
            if fileSize ≤ start ∨ fileSize ≤ endPos ∨ endPos < start then
              { status := 416,
                contentRange := some ("bytes */" ++ toString fileSize) }
            else
              let contentLength := endPos - start + 1
              { status := 206, contentType := some "video/mp4",
                contentLength := some contentLength,
                contentRange := some ("bytes " ++ toString start ++ "-" ++
                  toString endPos ++ "/" ++ toString fileSize),
                acceptRanges := true,
                body := some (start, contentLength) }
          | _ => { status := 400 }

/-- Spec-side notion (from the spec's words, for the refinement comparison
of the security boundary): a canonicalized absolute path lies inside a
configured root exactly when it is the root itself or extends it past a
path separator. The code instead uses the plain string-prefix test
`goHasPrefix`. -/
def pathInsideRoot (root p : String) : Prop :=
  p = root ∨ goHasPrefix p (root ++ "/") = true

instance (root p : String) : Decidable (pathInsideRoot root p) := by
  unfold pathInsideRoot; infer_instance

/-! ## Engagement-scoring store (`storage/stats.go`) -/

/-- One row of the `video_stats` table. Timestamps are rationals measured
in days, so `time.Since(t).Hours()/24` at wall-clock time `now` is
`now - t`. Schema defaults: counters 0, `liked` false, `last_viewed`
NULL, `hotness` 0, hashes NULL. -/
structure StatsRow where
  name : String
  views : Int
  likes : Int
  liked : Bool
  lastViewed : Option ℚ
  hotness : ℚ
deriving DecidableEq

/-- The `video_stats` table, keyed by video identifier (`path`). -/
def Db : Type := String → Option StatsRow

/-- `COALESCE(NULLIF(?, ''), name)`: an empty provided name keeps the old
one. -/
def coalesceName (provided old : String) : String :=
  if provided = "" then old else provided

/-- The hotness recomputation inside `updateHotness`: the `SELECT` reads
`(views, likes, last_viewed)` and the score is
`views*1.0 + likes*5.0 + recencyBonus` with a recency bonus of
`(7 - daysSinceViewed) * 10` while `daysSinceViewed < 7`, else 0;
a NULL `last_viewed` counts as 0 days. -/
def hotnessOf (views likes : Int) (lastViewed : Option ℚ) (now : ℚ) : ℚ :=
  let daysSinceViewed : ℚ := match lastViewed with | none => 0 | some t => now - t
  let recencyBonus : ℚ := if daysSinceViewed < 7 then (7 - daysSinceViewed) * 10 else 0
  (views : ℚ) * 1 + (likes : ℚ) * 5 + recencyBonus

/-- `storage.updateHotness`: one `SELECT` of the row followed by one
`UPDATE` of the `hotness` column; a missing row leaves the table
unchanged. -/
def updateHotness (db : Db) (path : String) (now : ℚ) : Db :=
  match db path with
  | none => db
  | some r =>
    fun q => if q = path
      then some { r with hotness := hotnessOf r.views r.likes r.lastViewed now }
      else db q

/-- The first SQL statement of `IncrementViews`: the
`INSERT ... ON CONFLICT(path) DO UPDATE` that bumps `views`, sets
`last_viewed = now` and coalesces `name`. -/
def viewUpsert (db : Db) (path name : String) (now : ℚ) : Db :=
  fun q =>
    if q = path then
      match db path with
      | none => some { name := name, views := 1, likes := 0, liked := false,
                       lastViewed := some now, hotness := 0 }
      | some r => some { r with views := r.views + 1,
                                name := coalesceName name r.name,
                                lastViewed := some now }
    else db q

/-- `storage.IncrementViews` (the `recordView` operation): the view upsert
followed by `updateHotness`, issued as two separate SQL statements. -/
def IncrementViews (db : Db) (path name : String) (now : ℚ) : Db :=
  updateHotness (viewUpsert db path name now) path now

/-- The sequence of table states a concurrent reader of the store can
observe during one `IncrementViews` call: the two mutating statements are
separate `db.Exec` calls (no enclosing transaction), so the state after
the upsert but before the hotness `UPDATE` is observable. `k` counts how
many of the two mutating statements have completed. -/
def incrementViewsAfter (db : Db) (path name : String) (now : ℚ) : Nat → Db
  | 0 => db
  | 1 => viewUpsert db path name now
  | _ + 2 => IncrementViews db path name now

/-- Observed liked flag of an identifier: the `SELECT liked` at the top of
`ToggleLike` (`ErrNoRows` reads as false). -/
def likedOf (db : Db) (path : String) : Bool :=
  ((db path).map (fun r => r.liked)).getD false

/-- The like upsert of `ToggleLike`: when the read `liked` was true, the
decrement-and-clear `UPDATE`; otherwise the increment-and-set statement
(whose `INSERT` arm, values `likes = 1, liked = 1` and schema defaults for
the rest, is the one that fires on a missing row, since a missing row reads
as not liked). -/
def toggleUpsert (db : Db) (path name : String) : Db := fun q =>
  if q = path then
    match db path with
    | none =>
      some { name := name, views := 0, likes := 1, liked := true,
             lastViewed := none, hotness := 0 }
    | some r =>
      if r.liked then
        some { r with likes := r.likes - 1, liked := false,
                      name := coalesceName name r.name }
      else
        some { r with likes := r.likes + 1, liked := true,
                      name := coalesceName name r.name }
  else db q

/-- `storage.ToggleLike`: read `liked` (a missing row reads as false),
then run the increment-and-set or decrement-and-clear upsert, then
`updateHotness`; returns the new liked state. -/
def ToggleLike (db : Db) (path name : String) (now : ℚ) : Bool × Db :=
  (!(likedOf db path), updateHotness (toggleUpsert db path name) path now)

/-- Observed view count of an identifier (0 when the row is absent). -/
def viewsOf (db : Db) (path : String) : Int :=
  ((db path).map (fun r => r.views)).getD 0

/-- Observed like count of an identifier (0 when the row is absent). -/
def likesOf (db : Db) (path : String) : Int :=
  ((db path).map (fun r => r.likes)).getD 0

/-- Observed hotness of an identifier (0 when the row is absent). -/
def hotnessFieldOf (db : Db) (path : String) : ℚ :=
  ((db path).map (fun r => r.hotness)).getD 0

/-- `IncrementViews` iterated: state after `n` `recordView` calls, the
`i`-th call happening at time `times i`. -/
def iterIncrement (db : Db) (path name : String) (times : Nat → ℚ) : Nat → Db
  | 0 => db
  | n + 1 => IncrementViews (iterIncrement db path name times n) path name (times n)

/-- `ToggleLike` iterated: state after `n` toggle calls, the `i`-th call
happening at time `times i`. -/
def iterToggle (db : Db) (path name : String) (times : Nat → ℚ) : Nat → Db
  | 0 => db
  | n + 1 => (ToggleLike (iterToggle db path name times n) path name (times n)).2

/-! ## Artifact generators (`handlers/thumbnail.go`, `handlers/preview.go`)

Each per-video job runs against an environment fixing the outcomes of its
effectful steps: artifact-file existence checks, the content-hash
computation (`storage.GetFileContentHash` over the first 1 MiB), the
`ffprobe` duration probe (raw stdout, or subprocess failure) and the
`ffmpeg` invocations. The outcome records how many external-tool
subprocesses were launched (`probeCalls` for `ffprobe`, `ffmpegCalls` for
`ffmpeg`), the hash recorded in the store (`SetThumbnailHash` /
`SetPreviewHash`), and the artifact file the run created. -/

structure ThumbEnv where
  fileExists : String → Bool
  contentHashResult : Except Unit String
  probeResult : Except Unit String
  ffmpegOk : Bool

structure ThumbOutcome where
  ok : Bool
  probeCalls : Nat
  ffmpegCalls : Nat
  storedHash : Option String
  createdFile : Option String
  ssArg : Option ℚ
deriving DecidableEq

/-- `ThumbnailGenerator.generateThumbnail`: the recorded-hash check, the
content-fingerprint dedup check, then probe (a sub-second or unparseable
duration falls back to 600 s) and a single-frame `ffmpeg` extraction at
`duration/2` (the `-ss` argument, reported as `ssArg`). -/
def generateThumbnail (cfg : Config) (existingHash : String) (env : ThumbEnv)
    (prefixedPath : String) : ThumbOutcome :=
  match parseVideoPath prefixedPath cfg with
  | .error _ =>
    { ok := false, probeCalls := 0, ffmpegCalls := 0,
      storedHash := none, createdFile := none, ssArg := none }
  | .ok _absVideoPath =>
    if existingHash ≠ "" ∧
        env.fileExists (filepathJoin cfg.thumbnailDir (existingHash ++ ".jpg")) = true then
      { ok := true, probeCalls := 0, ffmpegCalls := 0,
        storedHash := none, createdFile := none, ssArg := none }
    else
      match env.contentHashResult with
      | .error _ =>
        { ok := false, probeCalls := 0, ffmpegCalls := 0,
          storedHash := none, createdFile := none, ssArg := none }
      | .ok contentHash =>
        let thumbnailPath := filepathJoin cfg.thumbnailDir (contentHash ++ ".jpg")
        if env.fileExists thumbnailPath = true then
          { ok := true, probeCalls := 0, ffmpegCalls := 0,
            storedHash := some contentHash, createdFile := none, ssArg := none }
        else
          match env.probeResult with
          | .error _ =>
            { ok := false, probeCalls := 1, ffmpegCalls := 0,
              storedHash := none, createdFile := none, ssArg := none }
          | .ok probeOut =>
            let parsed := goParseFloatOrZero (trimSpace probeOut)
            let duration := if parsed < 1 then 600 else parsed
            let middlePoint := duration / 2
            if env.ffmpegOk then
              { ok := true, probeCalls := 1, ffmpegCalls := 1,
                storedHash := some contentHash,
                createdFile := some thumbnailPath, ssArg := some middlePoint }
            else
              { ok := false, probeCalls := 1, ffmpegCalls := 1,
                storedHash := none, createdFile := none,
                ssArg := some middlePoint }

structure PreviewEnv where
  fileExists : String → Bool
  contentHashResult : Except Unit String
  probeResult : Except Unit String
  segOk : Nat → Bool
  concatOk : Bool
  fallbackOk : Bool

structure PreviewOutcome where
  ok : Bool
  probeCalls : Nat
  ffmpegCalls : Nat
  storedHash : Option String
  createdFile : Option String
deriving DecidableEq

/-- Index of the first failing segment extraction, if any. -/
def firstSegFailure (segOk : Nat → Bool) (segments : Nat) : Option Nat :=
  (List.range segments).find? (fun i => !(segOk i))

/-- How many segment `ffmpeg` invocations the loop performs: it stops at
the first failure. -/
def segAttempts (segOk : Nat → Bool) (segments : Nat) : Nat :=
  match firstSegFailure segOk segments with
  | none => segments
  | some i => i + 1

/-- `PreviewGenerator.generatePreview`: the recorded-hash check, the
content-fingerprint dedup check, then probe (durations under 30 s and
unparseable ones fall back to 600 s), one segment `ffmpeg` invocation per
attempted segment, a concat invocation when all segments succeed, and a
single contiguous 30-second fallback clip when segmenting or concatenation
failed. -/
def generatePreview (cfg : Config) (existingHash : String) (env : PreviewEnv)
    (prefixedPath : String) : PreviewOutcome :=
  match parseVideoPath prefixedPath cfg with
  | .error _ =>
    { ok := false, probeCalls := 0, ffmpegCalls := 0,
      storedHash := none, createdFile := none }
  | .ok _absVideoPath =>
    if existingHash ≠ "" ∧
        env.fileExists (filepathJoin cfg.thumbnailDir (existingHash ++ ".mp4")) = true then
      { ok := true, probeCalls := 0, ffmpegCalls := 0,
        storedHash := none, createdFile := none }
    else
      match env.contentHashResult with
      | .error _ =>
        { ok := false, probeCalls := 0, ffmpegCalls := 0,
          storedHash := none, createdFile := none }
      | .ok contentHash =>
        let previewPath := filepathJoin cfg.thumbnailDir (contentHash ++ ".mp4")
        if env.fileExists previewPath = true then
          { ok := true, probeCalls := 0, ffmpegCalls := 0,
            storedHash := some contentHash, createdFile := none }
        else
          match env.probeResult with
          | .error _ =>
            { ok := false, probeCalls := 1, ffmpegCalls := 0,
              storedHash := none, createdFile := none }
          | .ok _probeOut =>
            let segments := cfg.previewSegments
            let attempts := segAttempts env.segOk segments
            let segsOk := firstSegFailure env.segOk segments = none
            let concatTried := segsOk
            let success := segsOk ∧ env.concatOk = true
            let fallbackTried := ¬ success
            let calls := attempts + (if concatTried then 1 else 0) +
              (if fallbackTried then 1 else 0)
            if success then
              { ok := true, probeCalls := 1, ffmpegCalls := calls,
                storedHash := some contentHash, createdFile := some previewPath }
            else if env.fallbackOk then
              { ok := true, probeCalls := 1, ffmpegCalls := calls,
                storedHash := some contentHash, createdFile := some previewPath }
            else
              { ok := false, probeCalls := 1, ffmpegCalls := calls,
                storedHash := none, createdFile := none }

/-! ## Batch-run scheduler (`main.go` generation endpoints) -/

structure GenProgress where
  total : Nat := 0
  done : Nat := 0
  failed : Nat := 0
  running : Bool := false
deriving DecidableEq

inductive RunKind where
  | thumbnail
  | preview
deriving DecidableEq

/-- The process-wide shared state guarded by `genMutex`. -/
structure SchedulerState where
  previewRunning : Bool := false
  thumbnailRunning : Bool := false
  previewProgress : GenProgress := {}
  thumbnailProgress : GenProgress := {}
deriving DecidableEq

inductive StartResult where
  | conflict (progress : GenProgress)
  | started
deriving DecidableEq

def runningFlag (k : RunKind) (s : SchedulerState) : Bool :=
  match k with
  | .preview => s.previewRunning
  | .thumbnail => s.thumbnailRunning

def progressOf (k : RunKind) (s : SchedulerState) : GenProgress :=
  match k with
  | .preview => s.previewProgress
  | .thumbnail => s.thumbnailProgress

def otherKind (k : RunKind) : RunKind :=
  match k with
  | .preview => .thumbnail
  | .thumbnail => .preview

/-- The critical section of `POST /api/previews/generate` and
`POST /api/thumbnails/generate` under `genMutex`: a run of the same kind
already active is answered with 409 Conflict carrying that kind's current
progress and the state is left untouched; otherwise the kind's running
flag is set and a background run is launched. -/
def startGeneration (k : RunKind) (s : SchedulerState) : StartResult × SchedulerState :=
  if runningFlag k s then
    (.conflict (progressOf k s), s)
  else
    match k with
    | .preview =>
      (.started, { s with previewRunning := true,
                          previewProgress := { s.previewProgress with running := true } })
    | .thumbnail =>
      (.started, { s with thumbnailRunning := true,
                          thumbnailProgress := { s.thumbnailProgress with running := true } })

/-! ## Concrete fixtures for witnesses and counterexamples -/

/-- A one-root configuration: root `/videos`, artifact dir `/thumbs`. -/
def cfgW : Config :=
  { videoDir := "/videos", videoDirs := ["/videos"],
    thumbnailDir := "/thumbs", previewSegments := 60 }

/-- A filesystem with one 1000-byte library video, one file in the sibling
directory `/videos2`, and `/etc/passwd`. -/
def fsW : String → Option Int := fun p =>
  if p = "/videos/a.mp4" then some 1000
  else if p = "/videos2/x.mp4" then some 100
  else if p = "/etc/passwd" then some 5
  else none

/-- The stats row of the spec's hotness example: 10 views, 2 likes, last
viewed at time 50. -/
def rowW : StatsRow :=
  { name := "n", views := 10, likes := 2, liked := false,
    lastViewed := some 50, hotness := 0 }

def dbHot : Db := fun q => if q = "v" then some rowW else none

/-- A store whose row was last viewed at time 0 with hotness 0. -/
def dbC6 : Db := fun q =>
  if q = "v" then
    some { name := "n", views := 0, likes := 0, liked := false,
           lastViewed := some 0, hotness := 0 }
  else none

/-- A store whose row is currently liked. -/
def dbLiked : Db := fun q =>
  if q = "v" then
    some { name := "n", views := 0, likes := 1, liked := true,
           lastViewed := none, hotness := 0 }
  else none

/-- The empty stats store. -/
def dbEmpty : Db := fun _ => none

/-- Thumbnail environment: artifact for recorded hash `h1` on disk, probe
reports 100 s. -/
def tenvW : ThumbEnv :=
  { fileExists := fun p => p == "/thumbs/h1.jpg",
    contentHashResult := .ok "abc", probeResult := .ok "100.0\n", ffmpegOk := true }

/-- Thumbnail environment with no cached artifacts and a failing probe. -/
def tenvProbeFail : ThumbEnv :=
  { fileExists := fun _ => false,
    contentHashResult := .ok "abc", probeResult := .error (), ffmpegOk := true }

/-- Thumbnail environment with no cached artifacts and a sub-second
probed duration. -/
def tenvShort : ThumbEnv :=
  { fileExists := fun _ => false,
    contentHashResult := .ok "abc", probeResult := .ok "0.25", ffmpegOk := true }

/-- Preview environment: artifact for recorded hash `h2` on disk. -/
def penvW : PreviewEnv :=
  { fileExists := fun p => p == "/thumbs/h2.mp4",
    contentHashResult := .ok "abc", probeResult := .ok "100.0",
    segOk := fun _ => true, concatOk := true, fallbackOk := true }

/-- Scheduler state with a preview run active at progress 3/10, 1 failed. -/
def sW : SchedulerState :=
  { previewRunning := true,
    previewProgress := { total := 10, done := 3, failed := 1, running := true } }

/-! ## Store lemmas -/

theorem updateHotness_viewsOf (db : Db) (path : String) (now : ℚ) (q : String) :
    viewsOf (updateHotness db path now) q = viewsOf db q := by
  unfold updateHotness viewsOf
  cases h : db path with
  | none => rfl
  | some r =>
    by_cases hq : q = path
    · subst hq; simp [h]
    · simp [hq]

theorem updateHotness_likesOf (db : Db) (path : String) (now : ℚ) (q : String) :
    likesOf (updateHotness db path now) q = likesOf db q := by
  unfold updateHotness likesOf
  cases h : db path with
  | none => rfl
  | some r =>
    by_cases hq : q = path
    · subst hq; simp [h]
    · simp [hq]

theorem updateHotness_likedOf (db : Db) (path : String) (now : ℚ) (q : String) :
    likedOf (updateHotness db path now) q = likedOf db q := by
  unfold updateHotness likedOf
  cases h : db path with
  | none => rfl
  | some r =>
    by_cases hq : q = path
    · subst hq; simp [h]
    · simp [hq]

theorem incrementViews_viewsOf (db : Db) (path name : String) (now : ℚ) :
    viewsOf (IncrementViews db path name now) path = viewsOf db path + 1 := by
  unfold IncrementViews
  rw [updateHotness_viewsOf]
  unfold viewsOf viewUpsert
  cases h : db path <;> simp [h]

theorem iterIncrement_viewsOf (db : Db) (path name : String) (times : Nat → ℚ)
    (N : Nat) :
    viewsOf (iterIncrement db path name times N) path = viewsOf db path + N := by
  induction N with
  | zero => simp [iterIncrement]
  | succ n ih =>
    rw [iterIncrement, incrementViews_viewsOf, ih]
    omega

theorem toggleLike_obs (db : Db) (path name : String) (now : ℚ) :
    (ToggleLike db path name now).1 = !(likedOf db path) ∧
    likedOf (ToggleLike db path name now).2 path = !(likedOf db path) ∧
    likesOf (ToggleLike db path name now).2 path =
      likesOf db path + (if likedOf db path then (-1 : Int) else 1) := by
  refine ⟨rfl, ?_, ?_⟩
  · show likedOf (updateHotness (toggleUpsert db path name) path now) path = _
    rw [updateHotness_likedOf]
    unfold likedOf toggleUpsert
    cases h : db path with
    | none => simp [h]
    | some r => cases hl : r.liked <;> simp [h, hl]
  · show likesOf (updateHotness (toggleUpsert db path name) path now) path = _
    rw [updateHotness_likesOf]
    unfold likedOf likesOf toggleUpsert
    cases h : db path with
    | none => simp [h]
    | some r => cases hl : r.liked <;> simp [h, hl, sub_eq_add_neg]

theorem iterToggle_even_obs (db : Db) (path name : String) (times : Nat → ℚ)
    (k : Nat) :
    likedOf (iterToggle db path name times (2 * k)) path = likedOf db path ∧
    likesOf (iterToggle db path name times (2 * k)) path = likesOf db path := by
  induction k with
  | zero => simp [iterToggle]
  | succ n ih =>
    obtain ⟨hl, hk⟩ := ih
    have h2 : 2 * (n + 1) = (2 * n) + 1 + 1 := by ring
    rw [h2, iterToggle, iterToggle]
    have t1 := toggleLike_obs (iterToggle db path name times (2 * n)) path name
      (times (2 * n))
    have t2 := toggleLike_obs
      (ToggleLike (iterToggle db path name times (2 * n)) path name (times (2 * n))).2
      path name (times (2 * n + 1))
    constructor
    · rw [t2.2.1, t1.2.1, hl, Bool.not_not]
    · rw [t2.2.2, t1.2.1, t1.2.2, hl, hk]
      cases h : likedOf db path <;> simp

/-! ## Claim theorems: engagement scorer -/

/-- C5: the recomputed hotness equals
`views*1.0 + likes*5.0 + max(0, 7 - daysSinceLastViewed)*10`, the recency
bonus vanishing once at least 7 days have elapsed since the last view
(a NULL `last_viewed` counts as 0 days). -/
theorem updateHotness_formula (db : Db) (path : String) (now : ℚ) (r : StatsRow)
    (h : db path = some r) :
    (updateHotness db path now) path =
      some { r with hotness := ((r.views : ℚ) * 1 + (r.likes : ℚ) * 5 +
        max 0 (7 - ((r.lastViewed.map (fun t => now - t)).getD 0)) * 10) } := by
  have key : ∀ d : ℚ, (if d < 7 then (7 - d) * 10 else 0) = max 0 (7 - d) * 10 := by
    intro d
    rcases lt_or_le d 7 with hlt | hge
    · rw [if_pos hlt, max_eq_right (by linarith)]
    · rw [if_neg (by linarith), max_eq_left (by linarith), zero_mul]
  unfold updateHotness hotnessOf
  rw [h]
  cases hl : r.lastViewed with
  | none =>
    simp only [hl, Option.map_none', Option.getD_none]
    rw [key 0]
    simp
  | some t =>
    simp only [hl, Option.map_some', Option.getD_some]
    rw [key (now - t)]
    simp

/-- Witness for C5: the spec's two examples. With `views=10, likes=2` and
`lastViewed = now` the score is 90; with `lastViewed` 10 days before `now`
it is 20. -/
theorem updateHotness_formula_witness :
    (updateHotness dbHot "v" 50) "v" = some { rowW with hotness := 90 } ∧
    (updateHotness dbHot "v" 60) "v" = some { rowW with hotness := 20 } := by
  constructor
  · rw [updateHotness_formula dbHot "v" 50 rowW rfl]
    norm_num [rowW, max_def]
  · rw [updateHotness_formula dbHot "v" 60 rowW rfl]
    norm_num [rowW, max_def]

/-- C6 (counterexample): `recordView` is not atomic. Its view-increment
upsert and its hotness recompute are two separate `db.Exec` statements with
no enclosing transaction, so the store state between them — reachable by
any concurrent reader, since SQLite only serializes individual statements —
shows the incremented view count with a hotness that is not the recompute
from the incremented counters. -/
theorem incrementViews_intermediate_counterexample :
    viewsOf (incrementViewsAfter dbC6 "v" "n" 100 1) "v" = viewsOf dbC6 "v" + 1 ∧
    hotnessFieldOf (incrementViewsAfter dbC6 "v" "n" 100 1) "v" ≠
      hotnessOf (viewsOf dbC6 "v" + 1) (likesOf dbC6 "v") (some 100) 100 := by
  constructor
  · rfl
  · simp only [incrementViewsAfter, viewUpsert, hotnessFieldOf, viewsOf, likesOf,
      hotnessOf, dbC6]
    norm_num

/-- C6 (amended): `recordView` persists its increment and hotness
recomputation as two separate statements, not one atomic unit; between
them a reader can observe the incremented count with stale hotness (see
the counterexample). What does hold is per-call sequential correctness:
once a `recordView` call completes, the row holds the incremented view
count, `lastViewed = now`, unchanged likes, and a hotness recomputed from
exactly those incremented counters. -/
theorem incrementViews_final_state (db : Db) (path name : String) (now : ℚ) :
    ((IncrementViews db path name now) path).map
        (fun r => (r.views, r.likes, r.liked, r.lastViewed, r.hotness)) =
      some (viewsOf db path + 1, likesOf db path, likedOf db path, some now,
            hotnessOf (viewsOf db path + 1) (likesOf db path) (some now) now) := by
  unfold IncrementViews updateHotness viewUpsert viewsOf likesOf likedOf
  cases h : db path <;> simp [h]

/-- C7 (counterexample): the claim asserts that from every starting state
an even number of `toggleLike` calls returns the row to `liked == false`;
starting from a row with `liked == true`, two toggles return it to
`liked == true`. -/
theorem toggleLike_even_from_liked_counterexample :
    likedOf dbLiked "v" = true ∧
    likedOf (iterToggle dbLiked "v" "n" (fun _ => 0) 2) "v" = true := by
  decide

/-- C7 (amended): from a fresh (absent) row, N `recordView` calls yield
`views == N`; an even number of `toggleLike` calls returns the row to its
pre-sequence `liked` state (hence to `liked == false` when it started
false, e.g. fresh) with `likes` equal to its pre-sequence value; and each
call returns the new liked state, a flip to true incrementing `likes` by 1
and a flip to false decrementing it by 1. -/
theorem stats_counters_algebra (db : Db) (path name : String) (times : Nat → ℚ) :
    (db path = none →
      ∀ N, viewsOf (iterIncrement db path name times N) path = N) ∧
    (∀ k, likedOf (iterToggle db path name times (2 * k)) path = likedOf db path ∧
          likesOf (iterToggle db path name times (2 * k)) path = likesOf db path) ∧
    (∀ now, (ToggleLike db path name now).1 = !(likedOf db path) ∧
      likedOf (ToggleLike db path name now).2 path = !(likedOf db path) ∧
      likesOf (ToggleLike db path name now).2 path =
        likesOf db path + (if likedOf db path then (-1 : Int) else 1)) := by
  refine ⟨?_, ?_, ?_⟩
  · intro h N
    rw [iterIncrement_viewsOf]
    unfold viewsOf
    rw [h]
    simp
  · intro k
    exact iterToggle_even_obs db path name times k
  · intro now
    exact toggleLike_obs db path name now

/-- Witness for C7: five views on a fresh row give `views = 5`; four
toggles starting from `liked == false` return to `liked == false`; a
toggle on a liked row reports false and decrements. -/
theorem stats_counters_algebra_witness :
    viewsOf (iterIncrement dbEmpty "v" "n" (fun i => (i : ℚ)) 5) "v" = 5 ∧
    likedOf (iterToggle dbC6 "v" "n" (fun _ => 0) (2 * 2)) "v" = likedOf dbC6 "v" ∧
    (ToggleLike dbLiked "v" "n" 0).1 = !(likedOf dbLiked "v") := by
  refine ⟨(stats_counters_algebra dbEmpty "v" "n" (fun i => (i : ℚ))).1 rfl 5,
          ((stats_counters_algebra dbC6 "v" "n" (fun _ => 0)).2.1 2).1,
          ((stats_counters_algebra dbLiked "v" "n" (fun _ => 0)).2.2 0).1⟩

/-! ## Claim theorems: scheduler -/

/-- C8: starting a batch run of a kind that is already running is rejected
with a Conflict response carrying that kind's current progress counters and
leaves the whole scheduler state (in particular the active run's counters)
unchanged; starting the other kind is not rejected for that reason. -/
theorem startGeneration_conflict_isolated (k : RunKind) (s : SchedulerState) :
    (runningFlag k s = true →
      startGeneration k s = (.conflict (progressOf k s), s)) ∧
    (runningFlag k s = true → runningFlag (otherKind k) s = false →
      (startGeneration (otherKind k) s).1 = .started) := by
  constructor
  · intro h
    unfold startGeneration
    rw [h]
    rfl
  · intro _ hother
    unfold startGeneration
    rw [hother]
    cases otherKind k <;> rfl

/-- Witness for C8: with a preview run active at progress `(10, 3, 1)`, a
second preview start returns Conflict with exactly those counters and the
untouched state, while a thumbnail start is accepted. -/
theorem startGeneration_conflict_isolated_witness :
    startGeneration .preview sW =
      (.conflict { total := 10, done := 3, failed := 1, running := true }, sW) ∧
    (startGeneration .thumbnail sW).1 = .started := by
  constructor
  · rw [(startGeneration_conflict_isolated .preview sW).1 rfl]
    rfl
  · exact (startGeneration_conflict_isolated .preview sW).2 rfl rfl

/-! ## Claim theorems: path addresser -/

/-- C10: an identifier containing `:` anywhere always takes the
prefixed-path branch — it resolves only when the text before the first `:`
parses as a decimal integer inside `[0, len(videoDirs))`, and is rejected
with an error otherwise, so a bare relative path whose name contains a
colon can never resolve; the root-0 fallback applies exactly to
identifiers with no `:` at all. -/
theorem parseVideoPath_colon_discipline (p : String) (cfg : Config) :
    (∀ pathOut, stringsContainsChar p ':' = true →
      parseVideoPath p cfg = .ok pathOut →
      ∃ la lb i, splitN2Char ':' p.data = [la, lb] ∧
        goAtoi (String.mk la) = some i ∧
        0 ≤ i ∧ i < (cfg.videoDirs.length : Int) ∧
        pathOut = filepathJoin (cfg.videoDirs.getD i.toNat "") (String.mk lb)) ∧
    (∀ la lb, stringsContainsChar p ':' = true →
      splitN2Char ':' p.data = [la, lb] →
      (goAtoi (String.mk la) = none ∨
        ∀ i, goAtoi (String.mk la) = some i →
          ¬(0 ≤ i ∧ i < (cfg.videoDirs.length : Int))) →
      ∃ e, parseVideoPath p cfg = .error e) ∧
    (stringsContainsChar p ':' = false →
      parseVideoPath p cfg = .ok (filepathJoin cfg.videoDir p)) := by
  refine ⟨?_, ?_, ?_⟩
  · intro pathOut hc hok
    unfold parseVideoPath at hok
    rw [if_pos hc] at hok
    rcases hsplit : splitN2Char ':' p.data with _ | ⟨la, _ | ⟨lb, _ | _⟩⟩ <;>
      simp only [hsplit] at hok
    · exact absurd hok (by simp)
    · exact absurd hok (by simp)
    · cases hidx : goAtoi (String.mk la) with
      | none => simp only [hidx] at hok; exact absurd hok (by simp)
      | some i =>
        simp only [hidx] at hok
        by_cases hrange : i < 0 ∨ (cfg.videoDirs.length : Int) ≤ i
        · rw [if_pos hrange] at hok; exact absurd hok (by simp)
        · rw [if_neg hrange] at hok
          push_neg at hrange
          injection hok with hjoin
          exact ⟨la, lb, i, rfl, hidx, hrange.1, hrange.2, hjoin.symm⟩
    · exact absurd hok (by simp)
  · intro la lb hc hsplit hbad
    unfold parseVideoPath
    rw [if_pos hc, hsplit]
    cases hidx : goAtoi (String.mk la) with
    | none => exact ⟨.invalidIndex, by simp only [hidx]⟩
    | some i =>
      have hout : i < 0 ∨ (cfg.videoDirs.length : Int) ≤ i := by
        rcases hbad with hnone | hbig
        · rw [hidx] at hnone; cases hnone
        · have := hbig i hidx
          omega
      refine ⟨.indexOutOfRange, ?_⟩
      simp only [hidx]
      rw [if_pos hout]
  · intro hc
    unfold parseVideoPath
    rw [if_neg (by simp [hc])]

/-- Witness for C10: `my:video.mp4` (a bare name containing a colon) is
rejected, and a colon-free identifier resolves against the legacy root. -/
theorem parseVideoPath_colon_discipline_witness :
    (∃ e, parseVideoPath "my:video.mp4" cfgW = .error e) ∧
    parseVideoPath "plain.mp4" cfgW = .ok (filepathJoin cfgW.videoDir "plain.mp4") := by
  constructor
  · exact (parseVideoPath_colon_discipline "my:video.mp4" cfgW).2.1
      "my".data "video.mp4".data (by decide) (by decide) (Or.inl (by decide))
  · exact (parseVideoPath_colon_discipline "plain.mp4" cfgW).2.2 (by decide)

/-! ## Generator lemmas -/

theorem generateThumbnail_tierA (cfg : Config) (hashT : String) (env : ThumbEnv)
    (p ap : String) (hp : parseVideoPath p cfg = .ok ap)
    (hne : hashT ≠ "")
    (hfs : env.fileExists (filepathJoin cfg.thumbnailDir (hashT ++ ".jpg")) = true) :
    generateThumbnail cfg hashT env p =
      { ok := true, probeCalls := 0, ffmpegCalls := 0,
        storedHash := none, createdFile := none, ssArg := none } := by
  unfold generateThumbnail
  rw [hp]
  rw [if_pos ⟨hne, hfs⟩]

theorem generateThumbnail_tierB (cfg : Config) (hashT : String) (env : ThumbEnv)
    (p ap ch : String) (hp : parseVideoPath p cfg = .ok ap)
    (hmiss : ¬(hashT ≠ "" ∧
      env.fileExists (filepathJoin cfg.thumbnailDir (hashT ++ ".jpg")) = true))
    (hch : env.contentHashResult = .ok ch)
    (hfs : env.fileExists (filepathJoin cfg.thumbnailDir (ch ++ ".jpg")) = true) :
    generateThumbnail cfg hashT env p =
      { ok := true, probeCalls := 0, ffmpegCalls := 0,
        storedHash := some ch, createdFile := none, ssArg := none } := by
  unfold generateThumbnail
  rw [hp, if_neg hmiss, hch]
  simp only [hfs, if_pos]

theorem generateThumbnail_missPath (cfg : Config) (hashT : String) (env : ThumbEnv)
    (p ap ch : String) (hp : parseVideoPath p cfg = .ok ap)
    (hmiss : ¬(hashT ≠ "" ∧
      env.fileExists (filepathJoin cfg.thumbnailDir (hashT ++ ".jpg")) = true))
    (hch : env.contentHashResult = .ok ch)
    (hfs : env.fileExists (filepathJoin cfg.thumbnailDir (ch ++ ".jpg")) = false) :
    generateThumbnail cfg hashT env p =
      match env.probeResult with
      | .error _ =>
        { ok := false, probeCalls := 1, ffmpegCalls := 0,
          storedHash := none, createdFile := none, ssArg := none }
      | .ok out =>
        if env.ffmpegOk then
          { ok := true, probeCalls := 1, ffmpegCalls := 1,
            storedHash := some ch,
            createdFile := some (filepathJoin cfg.thumbnailDir (ch ++ ".jpg")),
            ssArg := some ((if goParseFloatOrZero (trimSpace out) < 1 then 600
              else goParseFloatOrZero (trimSpace out)) / 2) }
        else
          { ok := false, probeCalls := 1, ffmpegCalls := 1,
            storedHash := none, createdFile := none,
            ssArg := some ((if goParseFloatOrZero (trimSpace out) < 1 then 600
              else goParseFloatOrZero (trimSpace out)) / 2) } := by
  unfold generateThumbnail
  rw [hp, if_neg hmiss, hch]
  simp only [hfs]
  rfl

theorem generateThumbnail_tierC (cfg : Config) (hashT : String) (env : ThumbEnv)
    (p : String)
    (hcalls : 0 < (generateThumbnail cfg hashT env p).probeCalls +
      (generateThumbnail cfg hashT env p).ffmpegCalls) :
    ¬(hashT ≠ "" ∧
      env.fileExists (filepathJoin cfg.thumbnailDir (hashT ++ ".jpg")) = true) ∧
    ∀ ch, env.contentHashResult = .ok ch →
      env.fileExists (filepathJoin cfg.thumbnailDir (ch ++ ".jpg")) = false := by
  cases hp : parseVideoPath p cfg with
  | error e =>
    exfalso
    unfold generateThumbnail at hcalls
    simp only [hp] at hcalls
    simp at hcalls
  | ok ap =>
    by_cases hA : hashT ≠ "" ∧
        env.fileExists (filepathJoin cfg.thumbnailDir (hashT ++ ".jpg")) = true
    · exfalso
      rw [generateThumbnail_tierA cfg hashT env p ap hp hA.1 hA.2] at hcalls
      simp at hcalls
    · refine ⟨hA, ?_⟩
      intro ch hch
      by_cases hB : env.fileExists (filepathJoin cfg.thumbnailDir (ch ++ ".jpg")) = true
      · exfalso
        rw [generateThumbnail_tierB cfg hashT env p ap ch hp hA hch hB] at hcalls
        simp at hcalls
      · simpa using hB

theorem generatePreview_tierA (cfg : Config) (hashP : String) (env : PreviewEnv)
    (p ap : String) (hp : parseVideoPath p cfg = .ok ap)
    (hne : hashP ≠ "")
    (hfs : env.fileExists (filepathJoin cfg.thumbnailDir (hashP ++ ".mp4")) = true) :
    generatePreview cfg hashP env p =
      { ok := true, probeCalls := 0, ffmpegCalls := 0,
        storedHash := none, createdFile := none } := by
  unfold generatePreview
  rw [hp]
  rw [if_pos ⟨hne, hfs⟩]

theorem generatePreview_tierB (cfg : Config) (hashP : String) (env : PreviewEnv)
    (p ap ch : String) (hp : parseVideoPath p cfg = .ok ap)
    (hmiss : ¬(hashP ≠ "" ∧
      env.fileExists (filepathJoin cfg.thumbnailDir (hashP ++ ".mp4")) = true))
    (hch : env.contentHashResult = .ok ch)
    (hfs : env.fileExists (filepathJoin cfg.thumbnailDir (ch ++ ".mp4")) = true) :
    generatePreview cfg hashP env p =
      { ok := true, probeCalls := 0, ffmpegCalls := 0,
        storedHash := some ch, createdFile := none } := by
  unfold generatePreview
  rw [hp, if_neg hmiss, hch]
  simp only [hfs, if_pos]

theorem generatePreview_tierC (cfg : Config) (hashP : String) (env : PreviewEnv)
    (p : String)
    (hcalls : 0 < (generatePreview cfg hashP env p).probeCalls +
      (generatePreview cfg hashP env p).ffmpegCalls) :
    ¬(hashP ≠ "" ∧
      env.fileExists (filepathJoin cfg.thumbnailDir (hashP ++ ".mp4")) = true) ∧
    ∀ ch, env.contentHashResult = .ok ch →
      env.fileExists (filepathJoin cfg.thumbnailDir (ch ++ ".mp4")) = false := by
  cases hp : parseVideoPath p cfg with
  | error e =>
    exfalso
    unfold generatePreview at hcalls
    simp only [hp] at hcalls
    simp at hcalls
  | ok ap =>
    by_cases hA : hashP ≠ "" ∧
        env.fileExists (filepathJoin cfg.thumbnailDir (hashP ++ ".mp4")) = true
    · exfalso
      rw [generatePreview_tierA cfg hashP env p ap hp hA.1 hA.2] at hcalls
      simp at hcalls
    · refine ⟨hA, ?_⟩
      intro ch hch
      by_cases hB : env.fileExists (filepathJoin cfg.thumbnailDir (ch ++ ".mp4")) = true
      · exfalso
        rw [generatePreview_tierB cfg hashP env p ap ch hp hA hch hB] at hcalls
        simp at hcalls
      · simpa using hB

/-! ## Claim theorems: generation pipeline -/

/-- C1: both generators perform the three-tier cache check in order.
(a) A recorded hash whose artifact file exists skips generation with no
external-tool invocation and no store write; (b) otherwise, an artifact
already existing under the freshly computed content fingerprint records
the mapping with no tool invocation; (c) any run that invokes an external
tool (probe or generate) missed both checks. Hence a video whose recorded
hash and artifact file are unchanged costs zero external-tool invocations
on a repeated batch run. -/
theorem generation_three_tier_cache (cfg : Config) (hashT hashP : String)
    (tenv : ThumbEnv) (penv : PreviewEnv) (p ap : String) :
    (parseVideoPath p cfg = .ok ap → hashT ≠ "" →
      tenv.fileExists (filepathJoin cfg.thumbnailDir (hashT ++ ".jpg")) = true →
      generateThumbnail cfg hashT tenv p =
        { ok := true, probeCalls := 0, ffmpegCalls := 0,
          storedHash := none, createdFile := none, ssArg := none }) ∧
    (∀ ch, parseVideoPath p cfg = .ok ap →
      ¬(hashT ≠ "" ∧
        tenv.fileExists (filepathJoin cfg.thumbnailDir (hashT ++ ".jpg")) = true) →
      tenv.contentHashResult = .ok ch →
      tenv.fileExists (filepathJoin cfg.thumbnailDir (ch ++ ".jpg")) = true →
      generateThumbnail cfg hashT tenv p =
        { ok := true, probeCalls := 0, ffmpegCalls := 0,
          storedHash := some ch, createdFile := none, ssArg := none }) ∧
    (0 < (generateThumbnail cfg hashT tenv p).probeCalls +
        (generateThumbnail cfg hashT tenv p).ffmpegCalls →
      ¬(hashT ≠ "" ∧
        tenv.fileExists (filepathJoin cfg.thumbnailDir (hashT ++ ".jpg")) = true) ∧
      ∀ ch, tenv.contentHashResult = .ok ch →
        tenv.fileExists (filepathJoin cfg.thumbnailDir (ch ++ ".jpg")) = false) ∧
    (parseVideoPath p cfg = .ok ap → hashP ≠ "" →
      penv.fileExists (filepathJoin cfg.thumbnailDir (hashP ++ ".mp4")) = true →
      generatePreview cfg hashP penv p =
        { ok := true, probeCalls := 0, ffmpegCalls := 0,
          storedHash := none, createdFile := none }) ∧
    (∀ ch, parseVideoPath p cfg = .ok ap →
      ¬(hashP ≠ "" ∧
        penv.fileExists (filepathJoin cfg.thumbnailDir (hashP ++ ".mp4")) = true) →
      penv.contentHashResult = .ok ch →
      penv.fileExists (filepathJoin cfg.thumbnailDir (ch ++ ".mp4")) = true →
      generatePreview cfg hashP penv p =
        { ok := true, probeCalls := 0, ffmpegCalls := 0,
          storedHash := some ch, createdFile := none }) ∧
    (0 < (generatePreview cfg hashP penv p).probeCalls +
        (generatePreview cfg hashP penv p).ffmpegCalls →
      ¬(hashP ≠ "" ∧
        penv.fileExists (filepathJoin cfg.thumbnailDir (hashP ++ ".mp4")) = true) ∧
      ∀ ch, penv.contentHashResult = .ok ch →
        penv.fileExists (filepathJoin cfg.thumbnailDir (ch ++ ".mp4")) = false) :=
  ⟨fun hp hne hfs => generateThumbnail_tierA cfg hashT tenv p ap hp hne hfs,
   fun ch hp hmiss hch hfs => generateThumbnail_tierB cfg hashT tenv p ap ch hp hmiss hch hfs,
   fun hcalls => generateThumbnail_tierC cfg hashT tenv p hcalls,
   fun hp hne hfs => generatePreview_tierA cfg hashP penv p ap hp hne hfs,
   fun ch hp hmiss hch hfs => generatePreview_tierB cfg hashP penv p ap ch hp hmiss hch hfs,
   fun hcalls => generatePreview_tierC cfg hashP penv p hcalls⟩

/-- Witness for C1: with recorded hash `h1` (thumbnail) and `h2` (preview)
whose artifact files exist, both generators skip with zero tool
invocations. -/
theorem generation_three_tier_cache_witness :
    generateThumbnail cfgW "h1" tenvW "0:a.mp4" =
      { ok := true, probeCalls := 0, ffmpegCalls := 0,
        storedHash := none, createdFile := none, ssArg := none } ∧
    generatePreview cfgW "h2" penvW "0:a.mp4" =
      { ok := true, probeCalls := 0, ffmpegCalls := 0,
        storedHash := none, createdFile := none } := by
  constructor
  · exact (generation_three_tier_cache cfgW "h1" "h2" tenvW penvW "0:a.mp4"
      "/videos/a.mp4").1 rfl (by decide) (by decide)
  · exact (generation_three_tier_cache cfgW "h1" "h2" tenvW penvW "0:a.mp4"
      "/videos/a.mp4").2.2.2.1 rfl (by decide) (by decide)

/-- C9 (counterexample): when the duration cannot be determined because the
`ffprobe` subprocess itself fails, `generateThumbnail` fails the job with
an error and extracts no frame — it does not assume the 600-second default
and proceed, contrary to the claim's "whenever the duration cannot be
determined". (The default is applied only when the probe runs successfully
but its output is unparseable or below 1 second.) -/
theorem generateThumbnail_probe_failure_counterexample :
    generateThumbnail cfgW "" tenvProbeFail "0:a.mp4" =
      { ok := false, probeCalls := 1, ffmpegCalls := 0,
        storedHash := none, createdFile := none, ssArg := none } := by
  decide

/-- C9 (amended): on the miss path the still frame is extracted at the
temporal midpoint `duration/2`; when the probe subprocess succeeds but its
output parses to a duration below 1 second (unparseable output parses as
0), the 600-second default is assumed and generation proceeds (frame at
300 s); when the probe subprocess fails, the job fails with an error
instead. -/
theorem generateThumbnail_midpoint_default (cfg : Config) (hashT : String)
    (env : ThumbEnv) (p ap ch : String)
    (hp : parseVideoPath p cfg = .ok ap)
    (hmiss : ¬(hashT ≠ "" ∧
      env.fileExists (filepathJoin cfg.thumbnailDir (hashT ++ ".jpg")) = true))
    (hch : env.contentHashResult = .ok ch)
    (hfs : env.fileExists (filepathJoin cfg.thumbnailDir (ch ++ ".jpg")) = false) :
    (∀ out, env.probeResult = .ok out →
      (generateThumbnail cfg hashT env p).ssArg =
        some ((if goParseFloatOrZero (trimSpace out) < 1 then 600
          else goParseFloatOrZero (trimSpace out)) / 2)) ∧
    (∀ out, env.probeResult = .ok out → goParseFloatOrZero (trimSpace out) < 1 →
      (generateThumbnail cfg hashT env p).ssArg = some 300 ∧
      (env.ffmpegOk = true → (generateThumbnail cfg hashT env p).ok = true)) ∧
    (env.probeResult = .error () →
      generateThumbnail cfg hashT env p =
        { ok := false, probeCalls := 1, ffmpegCalls := 0,
          storedHash := none, createdFile := none, ssArg := none }) := by
  have hm := generateThumbnail_missPath cfg hashT env p ap ch hp hmiss hch hfs
  refine ⟨?_, ?_, ?_⟩
  · intro out hout
    rw [hm]
    simp only [hout]
    cases hffm : env.ffmpegOk <;> simp [hffm]
  · intro out hout hlt
    rw [hm]
    simp only [hout]
    constructor
    · cases hffm : env.ffmpegOk <;> simp [hffm, if_pos hlt] <;> norm_num
    · intro hffm
      simp [hffm]
  · intro herr
    rw [hm]
    simp only [herr]

/-- Witness for C9 (amended): a probe reporting `0.25` seconds triggers the
600-second default and the frame is taken at 300 s, with the job
succeeding. -/
theorem generateThumbnail_midpoint_default_witness :
    (generateThumbnail cfgW "" tenvShort "0:a.mp4").ssArg = some 300 ∧
    (generateThumbnail cfgW "" tenvShort "0:a.mp4").ok = true := by
  have h := (generateThumbnail_midpoint_default cfgW "" tenvShort "0:a.mp4"
    "/videos/a.mp4" "abc" rfl (by simp) rfl rfl).2.1 "0.25" rfl
    (by show ((0 : Nat) : ℚ) + ((25 : Nat) : ℚ) / ((10 : ℚ) ^ 2) < 1; norm_num)
  exact ⟨h.1, h.2 rfl⟩

/-! ## Range-parser lemmas -/

theorem splitChar_not_mem (sep : Char) (l : List Char) :
    ∀ part ∈ splitChar sep l, sep ∉ part := by
  induction l with
  | nil =>
    intro part hp
    simp only [splitChar, List.mem_singleton] at hp
    subst hp
    simp
  | cons c cs ih =>
    intro part hp
    unfold splitChar at hp
    by_cases hc : c = sep
    · rw [if_pos hc] at hp
      rcases List.mem_cons.mp hp with rfl | hp2
      · simp
      · exact ih part hp2
    · rw [if_neg hc] at hp
      cases hsp : splitChar sep cs with
      | nil =>
        rw [hsp] at hp
        simp only [List.mem_singleton] at hp
        subst hp
        simp only [List.mem_singleton]
        exact fun heq => hc heq.symm
      | cons hd tl =>
        rw [hsp] at hp
        rcases List.mem_cons.mp hp with rfl | hp2
        · intro hmem
          rcases List.mem_cons.mp hmem with heq | hmem2
          · exact hc heq.symm
          · refine ih hd ?_ hmem2
            rw [hsp]
            exact List.mem_cons_self hd tl
        · refine ih part ?_
          rw [hsp]
          exact List.mem_cons_of_mem hd hp2

theorem parseSigned_nonneg (l : List Char) (h : '-' ∉ l) :
    ∀ v, parseSigned l = some v → 0 ≤ v := by
  intro v hp
  rcases l with _ | ⟨c, rest⟩
  · simp [parseSigned] at hp
  · simp only [parseSigned] at hp
    have hminus : c ≠ '-' := fun hc => h (hc ▸ List.mem_cons_self c rest)
    by_cases hplus : c = '+'
    · rw [if_pos hplus] at hp
      obtain ⟨n, -, hv⟩ := Option.map_eq_some'.mp hp
      subst hv
      exact Int.natCast_nonneg n
    · rw [if_neg hplus, if_neg hminus] at hp
      obtain ⟨n, -, hv⟩ := Option.map_eq_some'.mp hp
      subst hv
      exact Int.natCast_nonneg n

theorem parseInt64OrZeroL_nonneg (l : List Char) (h : '-' ∉ l) :
    0 ≤ parseInt64OrZeroL l := by
  cases hp : parseSigned l with
  | none => simp [parseInt64OrZeroL, hp]
  | some v =>
    have hv := parseSigned_nonneg l h v hp
    simp only [parseInt64OrZeroL, hp]
    by_cases h1 : v > int64Max
    · rw [if_pos h1]
      decide
    · rw [if_neg h1]
      by_cases h2 : v < int64Min
      · exfalso
        unfold int64Min at h2
        omega
      · rw [if_neg h2]
        exact hv

/-! ## Claim theorems: range streaming server -/

/-- C2: for a stream request that resolves, passes the directory check and
finds a file of size `S`: with no Range header the response is 200 with
`Content-Length = S`, `Accept-Ranges: bytes` and exactly the `S` file
bytes from offset 0; with a Range header `bytes=<start>-<end>` parsing to
`0 ≤ start ≤ end < S` (an empty end field meaning `S-1`) the response is
206 with `Content-Length = end-start+1`,
`Content-Range: bytes <start>-<end>/S` and exactly `end-start+1` file
bytes from offset `start`. -/
theorem StreamVideo_success_protocol (cfg : Config) (cwd : String)
    (fs : String → Option Int) (fname p : String) (S : Int)
    (hp : parseVideoPath (trimPrefixGo fname "/") cfg = .ok p)
    (hallow : cfg.videoDirs.any
      (fun d => goHasPrefix (filepathAbs cwd p) (filepathAbs cwd d)) = true)
    (hfs : fs (filepathAbs cwd p) = some S) :
    (StreamVideo cfg cwd fs fname "" =
      { status := 200, contentType := some "video/mp4",
        contentLength := some S, acceptRanges := true, body := some (0, S) }) ∧
    (∀ (hdr : String) (la lb : List Char), hdr ≠ "" →
      splitChar '-' (trimPrefixGo hdr "bytes=").data = [la, lb] →
      ∀ s e : Int, s = parseInt64OrZeroL la →
        e = (if lb = [] then S - 1 else parseInt64OrZeroL lb) →
        0 ≤ s → s ≤ e → e < S →
        StreamVideo cfg cwd fs fname hdr =
          { status := 206, contentType := some "video/mp4",
            contentLength := some (e - s + 1),
            contentRange := some ("bytes " ++ toString s ++ "-" ++ toString e ++
              "/" ++ toString S),
            acceptRanges := true, body := some (s, e - s + 1) }) := by
  constructor
  · unfold StreamVideo
    simp only [hp, hallow, hfs]
    rw [if_neg (by decide), if_pos trivial]
  · intro hdr la lb hne hsplit s e hs he h0 h1 h2
    unfold StreamVideo
    simp only [hp, hallow, hfs]
    rw [if_neg (by decide), if_neg hne]
    simp only [hsplit]
    rw [if_neg (by rw [← hs, ← he]; omega)]
    rw [← hs, ← he]

/-- Witness for C2: the spec's example — a 1000-byte file served whole
with 200, and `bytes=0-99` served as 206 with `Content-Range:
bytes 0-99/1000` and 100 bytes from offset 0. -/
theorem StreamVideo_success_protocol_witness :
    StreamVideo cfgW "/" fsW "/0:a.mp4" "" =
      { status := 200, contentType := some "video/mp4",
        contentLength := some 1000, acceptRanges := true,
        body := some (0, 1000) } ∧
    StreamVideo cfgW "/" fsW "/0:a.mp4" "bytes=0-99" =
      { status := 206, contentType := some "video/mp4",
        contentLength := some 100, contentRange := some "bytes 0-99/1000",
        acceptRanges := true, body := some (0, 100) } := by
  have h := StreamVideo_success_protocol cfgW "/" fsW "/0:a.mp4" "/videos/a.mp4"
    1000 rfl (by decide) rfl
  refine ⟨h.1, ?_⟩
  have h2 := h.2 "bytes=0-99" "0".data "99".data (by decide) (by decide)
    (parseInt64OrZeroL "0".data) (parseInt64OrZeroL "99".data) rfl (by decide)
    (by decide) (by decide) (by decide)
  rw [h2]
  decide

/-- C3: on the same success path, a Range header that does not split into
exactly two dash-separated fields after the `bytes=` prefix yields 400,
and a parsed range violating `0 ≤ start ≤ end < S` yields 416 with
`Content-Range: bytes */S` and no body (every parsed start is
nonnegative, since the start field cannot contain a minus sign). -/
theorem StreamVideo_range_rejections (cfg : Config) (cwd : String)
    (fs : String → Option Int) (fname p : String) (S : Int)
    (hp : parseVideoPath (trimPrefixGo fname "/") cfg = .ok p)
    (hallow : cfg.videoDirs.any
      (fun d => goHasPrefix (filepathAbs cwd p) (filepathAbs cwd d)) = true)
    (hfs : fs (filepathAbs cwd p) = some S) :
    (∀ hdr : String, hdr ≠ "" →
      (splitChar '-' (trimPrefixGo hdr "bytes=").data).length ≠ 2 →
      StreamVideo cfg cwd fs fname hdr = { status := 400 }) ∧
    (∀ (hdr : String) (la lb : List Char), hdr ≠ "" →
      splitChar '-' (trimPrefixGo hdr "bytes=").data = [la, lb] →
      ∀ s e : Int, s = parseInt64OrZeroL la →
        e = (if lb = [] then S - 1 else parseInt64OrZeroL lb) →
        ¬(0 ≤ s ∧ s ≤ e ∧ e < S) →
        StreamVideo cfg cwd fs fname hdr =
          { status := 416,
            contentRange := some ("bytes */" ++ toString S) }) := by
  constructor
  · intro hdr hne hlen
    unfold StreamVideo
    simp only [hp, hallow, hfs]
    rw [if_neg (by decide), if_neg hne]
    rcases hsplit : splitChar '-' (trimPrefixGo hdr "bytes=").data with
      _ | ⟨a, _ | ⟨b, _ | _⟩⟩ <;>
      rw [hsplit] at hlen <;>
      simp only [hsplit] <;>
      first
      | rfl
      | simp at hlen
  · intro hdr la lb hne hsplit s e hs he hviol
    have hla : '-' ∉ la :=
      splitChar_not_mem '-' (trimPrefixGo hdr "bytes=").data la
        (hsplit ▸ List.mem_cons_self la [lb])
    have h0 : 0 ≤ s := hs ▸ parseInt64OrZeroL_nonneg la hla
    unfold StreamVideo
    simp only [hp, hallow, hfs]
    rw [if_neg (by decide), if_neg hne]
    simp only [hsplit]
    rw [if_pos (by rw [← hs, ← he]; omega)]

/-- Witness for C3: `bytes=0-99-5` (three fields) yields 400, and the
spec's `bytes=S-S` example — `bytes=1000-1000` on a 1000-byte file —
yields 416 with `Content-Range: bytes */1000`. -/
theorem StreamVideo_range_rejections_witness :
    StreamVideo cfgW "/" fsW "/0:a.mp4" "bytes=0-99-5" = { status := 400 } ∧
    StreamVideo cfgW "/" fsW "/0:a.mp4" "bytes=1000-1000" =
      { status := 416, contentRange := some "bytes */1000" } := by
  have h := StreamVideo_range_rejections cfgW "/" fsW "/0:a.mp4" "/videos/a.mp4"
    1000 rfl (by decide) rfl
  constructor
  · exact h.1 "bytes=0-99-5" (by decide) (by decide)
  · have h2 := h.2 "bytes=1000-1000" "1000".data "1000".data (by decide) (by decide)
      (parseInt64OrZeroL "1000".data) (parseInt64OrZeroL "1000".data) rfl
      (by decide) (by decide)
    rw [h2]
    decide

/-- C4 (counterexample): the claim that no request is served for a resolved
path lying outside every configured root fails. With root `/videos`, the
identifier `0:../videos2/x.mp4` resolves (after canonicalization) to
`/videos2/x.mp4`, which lies inside no configured root, yet the plain
string-prefix check accepts it (`"/videos"` is a string prefix of
`"/videos2/x.mp4"`) and the file is served with 200. -/
theorem streamVideo_outside_root_counterexample :
    parseVideoPath "0:../videos2/x.mp4" cfgW = .ok "/videos2/x.mp4" ∧
    (∀ root ∈ cfgW.videoDirs,
      ¬ pathInsideRoot (filepathAbs "/" root) "/videos2/x.mp4") ∧
    StreamVideo cfgW "/" fsW "/0:../videos2/x.mp4" "" =
      { status := 200, contentType := some "video/mp4",
        contentLength := some 100, acceptRanges := true,
        body := some (0, 100) } := by
  refine ⟨rfl, by decide, by decide⟩

/-- C4 (amended): the security check is a plain string-prefix comparison of
canonicalized absolute paths, not a directory-containment check. Whenever
the resolved absolute path extends no configured root's absolute path as a
string — which covers every classic traversal such as
`0:../../etc/passwd`, whose resolution is `/etc/passwd` — the request is
rejected with 403 and no file is opened or streamed; but a resolved path
that extends a root's path string while lying in a sibling directory
(e.g. `/videos2/...` under root `/videos`) passes the check (see the
counterexample). -/
theorem StreamVideo_denies_nonextending (cfg : Config) (cwd : String)
    (fs : String → Option Int) (fname p hdr : String)
    (hp : parseVideoPath (trimPrefixGo fname "/") cfg = .ok p)
    (hnone : ∀ d ∈ cfg.videoDirs,
      goHasPrefix (filepathAbs cwd p) (filepathAbs cwd d) = false) :
    StreamVideo cfg cwd fs fname hdr = { status := 403 } := by
  have hall : cfg.videoDirs.any
      (fun d => goHasPrefix (filepathAbs cwd p) (filepathAbs cwd d)) = false := by
    rw [List.any_eq_false]
    intro d hd
    simp [hnone d hd]
  unfold StreamVideo
  simp only [hp, hall]
  rw [if_pos trivial]

/-- Witness for C4 (amended): the spec's traversal example — an identifier
encoding `../../etc/passwd` resolves to `/etc/passwd`, extends no root,
and is rejected with 403 even though the file exists. -/
theorem StreamVideo_denies_nonextending_witness :
    StreamVideo cfgW "/" fsW "/0:../../etc/passwd" "" = { status := 403 } :=
  StreamVideo_denies_nonextending cfgW "/" fsW "/0:../../etc/passwd"
    "/etc/passwd" "" rfl (by decide)

end Streamlet
